import Mathlib

/-!
Shallow embedding of `src/UNet.py` (a U-Net model definition built from
`torch.nn` primitives).

The embedding has two layers:

* a *shape semantics*: every tensor is abstracted to its shape
  `(batch, channels, height, width)`, and every framework primitive used by
  the source (`Conv2d`, `BatchNorm2d`, `ReLU`, `MaxPool2d`, `Upsample`,
  `ConvTranspose2d`, `F.pad`, `torch.cat`) becomes a function on shapes that
  returns `none` exactly when the framework would raise a shape error;
* a *value semantics* over exact rationals: a tensor is a shape together with
  a data function, the primitives compute the actual values (evaluation-mode
  batch normalization with running statistics, corner-aligned bilinear
  interpolation, etc.), and the shape of a value-level result is by
  construction the shape semantics applied to the input shape.

The module classes of the source (`DoubleConv`, `Down`, `Up`, `OutConv`,
`UNet`) become structures holding their constructor arguments, with their
`forward` methods translated line by line.
-/

/-- Shape of a 4-dimensional tensor `(batch, channels, height, width)`,
the only tensor layout occurring in `UNet.py`. -/
structure Shape where
  n : ℕ
  c : ℕ
  h : ℕ
  w : ℕ
deriving DecidableEq

/-- Shape semantics of `nn.Conv2d(cin, cout, kernel_size=k, padding=pad)`
with stride 1 (the only stride used by the source's convolutions).
The layer raises when the channel count does not match or the padded input is
smaller than the kernel; otherwise the output spatial size is
`h + 2*pad - k + 1`. -/
def conv2dShape (cin cout k pad : ℕ) (s : Shape) : Option Shape :=
  if s.c = cin ∧ k ≤ s.h + 2 * pad ∧ k ≤ s.w + 2 * pad then
    some ⟨s.n, cout, s.h + 2 * pad - k + 1, s.w + 2 * pad - k + 1⟩
  else none

/-- Shape semantics of `nn.BatchNorm2d(nf)`: shape-preserving, raises when
the channel count differs from the configured number of features. -/
def batchNorm2dShape (nf : ℕ) (s : Shape) : Option Shape :=
  if s.c = nf then some s else none

/-- Shape semantics of `nn.ReLU`: the identity on shapes. -/
def reluShape (s : Shape) : Shape := s

/-- Shape semantics of `nn.MaxPool2d(k, stride=stride)` (no padding):
raises when a spatial dimension is smaller than the kernel, otherwise the
output spatial size is `(h - k) / stride + 1` with flooring division. -/
def maxPool2dShape (k stride : ℕ) (s : Shape) : Option Shape :=
  if k ≤ s.h ∧ k ≤ s.w then
    some ⟨s.n, s.c, (s.h - k) / stride + 1, (s.w - k) / stride + 1⟩
  else none

/-- Shape semantics of `nn.Upsample(scale_factor=scale)`: the output spatial
size is `floor(h * scale) = scale * h`; never raises. -/
def upsampleShape (scale : ℕ) (s : Shape) : Shape :=
  ⟨s.n, s.c, scale * s.h, scale * s.w⟩

/-- Shape semantics of `nn.ConvTranspose2d(cin, cout, kernel_size=k,
stride=stride)`: raises when the channel count does not match or the input is
spatially empty; otherwise the output spatial size is `(h - 1) * stride + k`. -/
def convTranspose2dShape (cin cout k stride : ℕ) (s : Shape) : Option Shape :=
  if s.c = cin ∧ 1 ≤ s.h ∧ 1 ≤ s.w then
    some ⟨s.n, cout, (s.h - 1) * stride + k, (s.w - 1) * stride + k⟩
  else none

/-- Shape semantics of `F.pad(x, [l, r, t, b])`: the pad amounts may be
negative (cropping); the layer raises when a resulting size would be
negative. -/
def padShape (l r t b : ℤ) (s : Shape) : Option Shape :=
  if 0 ≤ (s.h : ℤ) + t + b ∧ 0 ≤ (s.w : ℤ) + l + r then
    some ⟨s.n, s.c, ((s.h : ℤ) + t + b).toNat, ((s.w : ℤ) + l + r).toNat⟩
  else none

/-- Shape semantics of `torch.cat([a, b], dim=1)`: channel counts add, all
other dimensions must agree. -/
def catShape (a b : Shape) : Option Shape :=
  if a.n = b.n ∧ a.h = b.h ∧ a.w = b.w then
    some ⟨a.n, a.c + b.c, a.h, a.w⟩
  else none

/-- `DoubleConv(in_channels, out_channels, mid_channels=None)` from
`UNet.py`: two `(Conv2d 3x3 pad 1 bias=False, BatchNorm2d, ReLU)` stages,
the first mapping `in_channels` to `mid_channels`, the second `mid_channels`
to `out_channels`. -/
structure DoubleConv where
  in_channels : ℕ
  out_channels : ℕ
  mid_channels : ℕ

/-- Constructor of `DoubleConv`: `mid_channels` defaults to `out_channels`
when `None` is passed (`if mid_channels is None: mid_channels = out_channels`). -/
def DoubleConv.make (in_channels out_channels : ℕ) (mid_channels : Option ℕ) :
    DoubleConv :=
  ⟨in_channels, out_channels, mid_channels.getD out_channels⟩

/-- Shape semantics of `DoubleConv.forward` (inherited from
`nn.Sequential`): conv1, bn1, relu, conv2, bn2, relu. -/
def DoubleConv.forward (m : DoubleConv) (s : Shape) : Option Shape :=
  (conv2dShape m.in_channels m.mid_channels 3 1 s).bind fun s1 =>
  (batchNorm2dShape m.mid_channels s1).bind fun s2 =>
  (conv2dShape m.mid_channels m.out_channels 3 1 (reluShape s2)).bind fun s3 =>
  (batchNorm2dShape m.out_channels s3).map fun s4 =>
  reluShape s4

/-- `Down(in_channels, out_channels)` from `UNet.py`. -/
structure Down where
  in_channels : ℕ
  out_channels : ℕ

/-- The `DoubleConv(in_channels, out_channels)` submodule of `Down`. -/
def Down.conv (m : Down) : DoubleConv :=
  DoubleConv.make m.in_channels m.out_channels none

/-- Shape semantics of `Down.forward`: `MaxPool2d(2, stride=2)` followed by
the double convolution. -/
def Down.forward (m : Down) (s : Shape) : Option Shape :=
  (maxPool2dShape 2 2 s).bind fun s1 => m.conv.forward s1

/-- `Up(in_channels, out_channels, bilinear=True)` from `UNet.py`. -/
structure Up where
  in_channels : ℕ
  out_channels : ℕ
  bilinear : Bool

/-- The `self.conv` submodule of `Up`: with `bilinear` it is
`DoubleConv(in_channels, out_channels, in_channels // 2)`, otherwise
`DoubleConv(in_channels, out_channels)`. -/
def Up.conv (m : Up) : DoubleConv :=
  if m.bilinear then
    DoubleConv.make m.in_channels m.out_channels (some (m.in_channels / 2))
  else
    DoubleConv.make m.in_channels m.out_channels none

/-- Shape semantics of the `self.up` submodule of `Up`: with `bilinear` it is
`nn.Upsample(scale_factor=2, mode='bilinear', align_corners=True)` (channel
preserving), otherwise `nn.ConvTranspose2d(in_channels, in_channels // 2,
kernel_size=2, stride=2)` (halving the channel count). -/
def Up.upLayer (m : Up) (s : Shape) : Option Shape :=
  if m.bilinear then some (upsampleShape 2 s)
  else convTranspose2dShape m.in_channels (m.in_channels / 2) 2 2 s

/-- Lines 44-47 of `UNet.py`: compute `diff_y = x2.h - x1.h` and
`diff_x = x2.w - x1.w` and pad `x1` by
`[diff_x // 2, diff_x - diff_x // 2, diff_y // 2, diff_y - diff_y // 2]`.
Python `//` is flooring division on integers, i.e. `Int.fdiv`. -/
def Up.padToMatch (x1 x2 : Shape) : Option Shape :=
  let diff_y : ℤ := (x2.h : ℤ) - (x1.h : ℤ)
  let diff_x : ℤ := (x2.w : ℤ) - (x1.w : ℤ)
  padShape (diff_x.fdiv 2) (diff_x - diff_x.fdiv 2)
    (diff_y.fdiv 2) (diff_y - diff_y.fdiv 2) x1

/-- Shape semantics of `Up.forward(x1, x2)`: upsample `x1`, pad it to `x2`'s
spatial size, concatenate `[x2, x1]` along channels, apply the double
convolution. -/
def Up.forward (m : Up) (x1 x2 : Shape) : Option Shape :=
  (m.upLayer x1).bind fun u =>
  (Up.padToMatch u x2).bind fun p =>
  (catShape x2 p).bind fun x =>
  m.conv.forward x

/-- `OutConv(in_channels, num_classes)` from `UNet.py`: a single
`Conv2d(in_channels, num_classes, kernel_size=1)`. -/
structure OutConv where
  in_channels : ℕ
  num_classes : ℕ

/-- Shape semantics of `OutConv.forward`: a 1x1 convolution (stride 1,
padding 0, with bias). -/
def OutConv.forward (m : OutConv) (s : Shape) : Option Shape :=
  conv2dShape m.in_channels m.num_classes 1 0 s

/-- `UNet(in_channels=1, num_classes=4, bilinear=True, base_c=64)` from
`UNet.py`: the four constructor arguments fully determine every submodule. -/
structure UNet where
  in_channels : ℕ
  num_classes : ℕ
  bilinear : Bool
  base_c : ℕ

/-- Constructor of `UNet` (the source's defaults are `in_channels=1`,
`num_classes=4`, `bilinear=True`, `base_c=64`). -/
def UNet.make (in_channels num_classes : ℕ) (bilinear : Bool) (base_c : ℕ) :
    UNet :=
  ⟨in_channels, num_classes, bilinear, base_c⟩

/-- `factor = 2 if bilinear else 1` (line 78 of `UNet.py`). -/
def UNet.factor (m : UNet) : ℕ := if m.bilinear then 2 else 1

/-- `self.in_conv = DoubleConv(in_channels, base_c)`. -/
def UNet.in_conv (m : UNet) : DoubleConv := DoubleConv.make m.in_channels m.base_c none

/-- `self.down1 = Down(base_c, base_c * 2)`. -/
def UNet.down1 (m : UNet) : Down := ⟨m.base_c, m.base_c * 2⟩

/-- `self.down2 = Down(base_c * 2, base_c * 4)`. -/
def UNet.down2 (m : UNet) : Down := ⟨m.base_c * 2, m.base_c * 4⟩

/-- `self.down3 = Down(base_c * 4, base_c * 8)`. -/
def UNet.down3 (m : UNet) : Down := ⟨m.base_c * 4, m.base_c * 8⟩

/-- `self.down4 = Down(base_c * 8, base_c * 16 // factor)`. -/
def UNet.down4 (m : UNet) : Down := ⟨m.base_c * 8, m.base_c * 16 / m.factor⟩

/-- `self.up1 = Up(base_c * 16, base_c * 8 // factor, bilinear)`. -/
def UNet.up1 (m : UNet) : Up := ⟨m.base_c * 16, m.base_c * 8 / m.factor, m.bilinear⟩

/-- `self.up2 = Up(base_c * 8, base_c * 4 // factor, bilinear)`. -/
def UNet.up2 (m : UNet) : Up := ⟨m.base_c * 8, m.base_c * 4 / m.factor, m.bilinear⟩

/-- `self.up3 = Up(base_c * 4, base_c * 2 // factor, bilinear)`. -/
def UNet.up3 (m : UNet) : Up := ⟨m.base_c * 4, m.base_c * 2 / m.factor, m.bilinear⟩

/-- `self.up4 = Up(base_c * 2, base_c, bilinear)`. -/
def UNet.up4 (m : UNet) : Up := ⟨m.base_c * 2, m.base_c, m.bilinear⟩

/-- `self.out_conv = OutConv(base_c, num_classes)`. -/
def UNet.out_conv (m : UNet) : OutConv := ⟨m.base_c, m.num_classes⟩

/-- The encoder half of `UNet.forward` (lines 92-96): the five cached
tensors `x1 .. x5`. -/
def UNet.encode (m : UNet) (s : Shape) :
    Option (Shape × Shape × Shape × Shape × Shape) :=
  (m.in_conv.forward s).bind fun x1 =>
  (m.down1.forward x1).bind fun x2 =>
  (m.down2.forward x2).bind fun x3 =>
  (m.down3.forward x3).bind fun x4 =>
  (m.down4.forward x4).map fun x5 =>
  (x1, x2, x3, x4, x5)

/-- First decoder stage (`x = self.up1(x5, x4)`). -/
def UNet.dec1 (m : UNet) (s : Shape) : Option Shape :=
  (m.encode s).bind fun e => m.up1.forward e.2.2.2.2 e.2.2.2.1

/-- Second decoder stage (`x = self.up2(x, x3)`). -/
def UNet.dec2 (m : UNet) (s : Shape) : Option Shape :=
  (m.encode s).bind fun e =>
  (m.dec1 s).bind fun d1 => m.up2.forward d1 e.2.2.1

/-- Third decoder stage (`x = self.up3(x, x2)`). -/
def UNet.dec3 (m : UNet) (s : Shape) : Option Shape :=
  (m.encode s).bind fun e =>
  (m.dec2 s).bind fun d2 => m.up3.forward d2 e.2.1

/-- Fourth decoder stage (`x = self.up4(x, x1)`). -/
def UNet.dec4 (m : UNet) (s : Shape) : Option Shape :=
  (m.encode s).bind fun e =>
  (m.dec3 s).bind fun d3 => m.up4.forward d3 e.1

/-- Shape semantics of `UNet.forward` (lines 90-104), translated line by
line. -/
def UNet.forward (m : UNet) (s : Shape) : Option Shape :=
  (m.in_conv.forward s).bind fun x1 =>
  (m.down1.forward x1).bind fun x2 =>
  (m.down2.forward x2).bind fun x3 =>
  (m.down3.forward x3).bind fun x4 =>
  (m.down4.forward x4).bind fun x5 =>
  (m.up1.forward x5 x4).bind fun u1 =>
  (m.up2.forward u1 x3).bind fun u2 =>
  (m.up3.forward u2 x2).bind fun u3 =>
  (m.up4.forward u3 x1).bind fun u4 =>
  m.out_conv.forward u4

/-- The per-level output channel widths of the encoder, in order
(`in_conv`, `down1` .. `down4`). -/
def UNet.encoderWidths (m : UNet) : List ℕ :=
  [m.in_conv.out_channels, m.down1.out_channels, m.down2.out_channels,
   m.down3.out_channels, m.down4.out_channels]

/-- The per-level output channel widths of the decoder, in order
(`up1` .. `up4`). -/
def UNet.decoderWidths (m : UNet) : List ℕ :=
  [m.up1.out_channels, m.up2.out_channels, m.up3.out_channels,
   m.up4.out_channels]

/-- The concatenation stage of `Up.forward`: upsample `x1`, pad it to `x2`'s
spatial size and concatenate `[x2, x1]` along the channel axis (lines 41-50
of `UNet.py`, stopping just before `self.conv`). -/
def Up.catted (m : Up) (x1 x2 : Shape) : Option Shape :=
  (m.upLayer x1).bind fun u =>
  (Up.padToMatch u x2).bind fun p =>
  catShape x2 p

/-- The concatenated tensor of the first decoder stage. -/
def UNet.cat1 (m : UNet) (s : Shape) : Option Shape :=
  (m.encode s).bind fun e => m.up1.catted e.2.2.2.2 e.2.2.2.1

/-- The concatenated tensor of the second decoder stage. -/
def UNet.cat2 (m : UNet) (s : Shape) : Option Shape :=
  (m.encode s).bind fun e =>
  (m.dec1 s).bind fun d1 => m.up2.catted d1 e.2.2.1

/-- The concatenated tensor of the third decoder stage. -/
def UNet.cat3 (m : UNet) (s : Shape) : Option Shape :=
  (m.encode s).bind fun e =>
  (m.dec2 s).bind fun d2 => m.up3.catted d2 e.2.1

/-- The concatenated tensor of the fourth decoder stage. -/
def UNet.cat4 (m : UNet) (s : Shape) : Option Shape :=
  (m.encode s).bind fun e =>
  (m.dec3 s).bind fun d3 => m.up4.catted d3 e.1

/-- A tensor of the value-level semantics: a shape together with a total
data function over (batch, channel, row, column) indices; only indices
inside the shape are meaningful. Values are exact rationals standing for
the framework's floating-point numbers. -/
structure Tensor where
  shape : Shape
  data : ℕ → ℕ → ℕ → ℕ → ℚ

/-- Read a value from a zero-padded view of a `h` by `w` plane: indices may
be negative or out of range, in which case the padding value 0 is read. -/
def padRead (h w : ℕ) (d : ℕ → ℕ → ℚ) (i j : ℤ) : ℚ :=
  if 0 ≤ i ∧ i < (h : ℤ) ∧ 0 ≤ j ∧ j < (w : ℤ) then d i.toNat j.toNat else 0

/-- Value semantics of `nn.Conv2d` (stride 1): cross-correlation over the
zero-padded input plus a per-output-channel bias (a `Conv2d` constructed
with `bias=False` is modelled by the zero bias function). The result shape
is exactly the one computed by `conv2dShape`. -/
def conv2dV (cin cout k pad : ℕ) (weight : ℕ → ℕ → ℕ → ℕ → ℚ) (bias : ℕ → ℚ)
    (x : Tensor) : Option Tensor :=
  (conv2dShape cin cout k pad x.shape).map fun sh =>
    ⟨sh, fun n co i j =>
      bias co + ∑ ci ∈ Finset.range cin, ∑ a ∈ Finset.range k,
        ∑ b ∈ Finset.range k,
          weight co ci a b *
            padRead x.shape.h x.shape.w (x.data n ci)
              ((i : ℤ) + a - pad) ((j : ℤ) + b - pad)⟩

/-- Evaluation-mode parameters of one `nn.BatchNorm2d` layer: the learned
affine parameters and the fixed running statistics; `invstd` holds the
framework's precomputed reciprocal square root of (running variance + eps),
so that the whole layer is the per-channel affine map it is in `eval()`
mode. -/
structure BNW where
  gamma : ℕ → ℚ
  beta : ℕ → ℚ
  mean : ℕ → ℚ
  invstd : ℕ → ℚ

/-- Value semantics of `nn.BatchNorm2d` in evaluation mode: per-channel
normalization by the fixed running statistics followed by the affine
transform. -/
def batchNorm2dV (nf : ℕ) (p : BNW) (x : Tensor) : Option Tensor :=
  (batchNorm2dShape nf x.shape).map fun sh =>
    ⟨sh, fun n c i j =>
      p.gamma c * ((x.data n c i j - p.mean c) * p.invstd c) + p.beta c⟩

/-- Value semantics of `nn.ReLU`: pointwise maximum with 0. -/
def reluV (x : Tensor) : Tensor :=
  ⟨x.shape, fun n c i j => max 0 (x.data n c i j)⟩

/-- Maximum of `f` over the `k` by `k` index window. -/
def windowMax (k : ℕ) (f : ℕ → ℕ → ℚ) : ℚ :=
  (List.range k).foldr
    (fun a acc =>
      max ((List.range k).foldr (fun b acc2 => max (f a b) acc2) (f a 0)) acc)
    (f 0 0)

/-- Value semantics of `nn.MaxPool2d(k, stride=stride)`: the maximum over
each window. -/
def maxPool2dV (k stride : ℕ) (x : Tensor) : Option Tensor :=
  (maxPool2dShape k stride x.shape).map fun sh =>
    ⟨sh, fun n c i j =>
      windowMax k fun a b => x.data n c (stride * i + a) (stride * j + b)⟩

/-- Source coordinate of output index `i` for corner-aligned interpolation:
`i * (inSize - 1) / (outSize - 1)` (0 when the output axis is degenerate). -/
def srcCoord (inSize outSize : ℕ) (i : ℕ) : ℚ :=
  if outSize ≤ 1 then 0
  else (i : ℚ) * ((inSize : ℚ) - 1) / ((outSize : ℚ) - 1)

/-- Value semantics of `nn.Upsample(scale_factor=scale, mode='bilinear',
align_corners=True)`: corner-aligned bilinear interpolation between the four
neighbouring input pixels of each source coordinate. -/
def upsampleBilinearV (scale : ℕ) (x : Tensor) : Tensor :=
  ⟨upsampleShape scale x.shape, fun n c i j =>
    let sy := srcCoord x.shape.h (scale * x.shape.h) i
    let sx := srcCoord x.shape.w (scale * x.shape.w) j
    let i0 : ℕ := sy.floor.toNat
    let i1 : ℕ := min (i0 + 1) (x.shape.h - 1)
    let ly : ℚ := sy - (i0 : ℚ)
    let j0 : ℕ := sx.floor.toNat
    let j1 : ℕ := min (j0 + 1) (x.shape.w - 1)
    let lx : ℚ := sx - (j0 : ℚ)
    (1 - ly) * (1 - lx) * x.data n c i0 j0 + (1 - ly) * lx * x.data n c i0 j1 +
      ly * (1 - lx) * x.data n c i1 j0 + ly * lx * x.data n c i1 j1⟩

/-- Value semantics of `nn.ConvTranspose2d`: each input pixel `(p, q)`
contributes `x[p][q] * weight[ci][co][a][b]` to output pixel
`(stride*p + a, stride*q + b)`, plus a per-output-channel bias. -/
def convTranspose2dV (cin cout k stride : ℕ) (weight : ℕ → ℕ → ℕ → ℕ → ℚ)
    (bias : ℕ → ℚ) (x : Tensor) : Option Tensor :=
  (convTranspose2dShape cin cout k stride x.shape).map fun sh =>
    ⟨sh, fun n co i j =>
      bias co + ∑ ci ∈ Finset.range cin, ∑ p ∈ Finset.range x.shape.h,
        ∑ q ∈ Finset.range x.shape.w, ∑ a ∈ Finset.range k,
          ∑ b ∈ Finset.range k,
            if i = stride * p + a ∧ j = stride * q + b then
              x.data n ci p q * weight ci co a b
            else 0⟩

/-- Value semantics of `F.pad(x, [l, r, t, b])` (constant mode, value 0):
output pixel `(i, j)` reads input pixel `(i - t, j - l)` through the
zero-padded view, which also realizes cropping for negative amounts. -/
def padV (l r t b : ℤ) (x : Tensor) : Option Tensor :=
  (padShape l r t b x.shape).map fun sh =>
    ⟨sh, fun n c i j =>
      padRead x.shape.h x.shape.w (x.data n c) ((i : ℤ) - t) ((j : ℤ) - l)⟩

/-- Value semantics of `torch.cat([a, b], dim=1)`: the first `a.shape.c`
channels come from `a`, the rest from `b`. -/
def catV (a b : Tensor) : Option Tensor :=
  (catShape a.shape b.shape).map fun sh =>
    ⟨sh, fun n c i j =>
      if c < a.shape.c then a.data n c i j else b.data n (c - a.shape.c) i j⟩

/-- Weights of one `DoubleConv` block: the two convolution kernels (both
constructed with `bias=False`) and the two batch-normalization parameter
sets. -/
structure DCW where
  weight1 : ℕ → ℕ → ℕ → ℕ → ℚ
  bn1 : BNW
  weight2 : ℕ → ℕ → ℕ → ℕ → ℚ
  bn2 : BNW

/-- Value semantics of `DoubleConv.forward`: conv1 (`bias=False`), bn1,
relu, conv2 (`bias=False`), bn2, relu. -/
def DoubleConv.forwardV (m : DoubleConv) (p : DCW) (x : Tensor) :
    Option Tensor :=
  (conv2dV m.in_channels m.mid_channels 3 1 p.weight1 (fun _ => 0) x).bind
    fun x1 =>
  (batchNorm2dV m.mid_channels p.bn1 x1).bind fun x2 =>
  (conv2dV m.mid_channels m.out_channels 3 1 p.weight2 (fun _ => 0)
      (reluV x2)).bind fun x3 =>
  (batchNorm2dV m.out_channels p.bn2 x3).map fun x4 =>
  reluV x4

/-- Value semantics of `Down.forward`. -/
def Down.forwardV (m : Down) (p : DCW) (x : Tensor) : Option Tensor :=
  (maxPool2dV 2 2 x).bind fun x1 => m.conv.forwardV p x1

/-- Weights of one `Up` block: the transpose-convolution parameters (used
only when `bilinear` is false; `nn.ConvTranspose2d` carries a bias by
default) and the `DoubleConv` weights. -/
structure UpW where
  upWeight : ℕ → ℕ → ℕ → ℕ → ℚ
  upBias : ℕ → ℚ
  conv : DCW

/-- Value semantics of the `self.up` submodule of `Up`. -/
def Up.upLayerV (m : Up) (p : UpW) (x : Tensor) : Option Tensor :=
  if m.bilinear then some (upsampleBilinearV 2 x)
  else convTranspose2dV m.in_channels (m.in_channels / 2) 2 2
    p.upWeight p.upBias x

/-- Value semantics of lines 44-47 of `UNet.py` (the difference computation
and the pad call). -/
def Up.padToMatchV (x1 x2 : Tensor) : Option Tensor :=
  let diff_y : ℤ := (x2.shape.h : ℤ) - (x1.shape.h : ℤ)
  let diff_x : ℤ := (x2.shape.w : ℤ) - (x1.shape.w : ℤ)
  padV (diff_x.fdiv 2) (diff_x - diff_x.fdiv 2)
    (diff_y.fdiv 2) (diff_y - diff_y.fdiv 2) x1

/-- Value semantics of `Up.forward(x1, x2)`, translated line by line. -/
def Up.forwardV (m : Up) (p : UpW) (x1 x2 : Tensor) : Option Tensor :=
  (m.upLayerV p x1).bind fun u =>
  (Up.padToMatchV u x2).bind fun pd =>
  (catV x2 pd).bind fun x =>
  m.conv.forwardV p.conv x

/-- Step 1 of the spec's UpBlock algorithm: upsample `x1` by spatial factor
2, via corner-aligned bilinear interpolation when the bilinear flag is set,
otherwise via the learned transpose-convolution mapping `in_channels` to
`in_channels / 2` channels. -/
def Up.specStep1 (m : Up) (p : UpW) (x1 : Tensor) : Option Tensor :=
  if m.bilinear then some (upsampleBilinearV 2 x1)
  else convTranspose2dV m.in_channels (m.in_channels / 2) 2 2
    p.upWeight p.upBias x1

/-- Steps 2 and 3 of the spec's UpBlock algorithm: compute the height and
width differences between `x2` and the upsampled `x1`, then pad the
upsampled `x1` by `difference // 2` on the leading edge and the remainder
on the trailing edge, independently per axis. -/
def Up.specStep23 (u x2 : Tensor) : Option Tensor :=
  let dy : ℤ := (x2.shape.h : ℤ) - (u.shape.h : ℤ)
  let dx : ℤ := (x2.shape.w : ℤ) - (u.shape.w : ℤ)
  padV (dx.fdiv 2) (dx - dx.fdiv 2) (dy.fdiv 2) (dy - dy.fdiv 2) u

/-- Step 4 of the spec's UpBlock algorithm: concatenate `x2` and the padded
`x1` along the channel axis, `x2`'s channels first. -/
def Up.specStep4 (x2 p : Tensor) : Option Tensor := catV x2 p

/-- Step 5 of the spec's UpBlock algorithm: apply the one ConvBlock of the
UpBlock. -/
def Up.specStep5 (m : Up) (p : UpW) (x : Tensor) : Option Tensor :=
  m.conv.forwardV p.conv x

/-- The spec's five-step UpBlock algorithm, steps composed in order. -/
def Up.forwardSpec (m : Up) (p : UpW) (x1 x2 : Tensor) : Option Tensor :=
  (Up.specStep1 m p x1).bind fun u =>
  (Up.specStep23 u x2).bind fun pd =>
  (Up.specStep4 x2 pd).bind fun x =>
  Up.specStep5 m p x

/-- Weights of the `OutConv` block (`nn.Conv2d` with its default bias). -/
structure OutW where
  weight : ℕ → ℕ → ℕ → ℕ → ℚ
  bias : ℕ → ℚ

/-- Value semantics of `OutConv.forward`. -/
def OutConv.forwardV (m : OutConv) (p : OutW) (x : Tensor) : Option Tensor :=
  conv2dV m.in_channels m.num_classes 1 0 p.weight p.bias x

/-- The complete weight set of a `UNet`: one entry per submodule built in
`UNet.__init__`. -/
structure UNetW where
  in_conv : DCW
  down1 : DCW
  down2 : DCW
  down3 : DCW
  down4 : DCW
  up1 : UpW
  up2 : UpW
  up3 : UpW
  up4 : UpW
  out_conv : OutW

/-- Value semantics of `UNet.forward` (lines 90-104), translated line by
line. -/
def UNet.forwardV (m : UNet) (p : UNetW) (x : Tensor) : Option Tensor :=
  (m.in_conv.forwardV p.in_conv x).bind fun x1 =>
  (m.down1.forwardV p.down1 x1).bind fun x2 =>
  (m.down2.forwardV p.down2 x2).bind fun x3 =>
  (m.down3.forwardV p.down3 x3).bind fun x4 =>
  (m.down4.forwardV p.down4 x4).bind fun x5 =>
  (m.up1.forwardV p.up1 x5 x4).bind fun u1 =>
  (m.up2.forwardV p.up2 u1 x3).bind fun u2 =>
  (m.up3.forwardV p.up3 u2 x2).bind fun u3 =>
  (m.up4.forwardV p.up4 u3 x1).bind fun u4 =>
  m.out_conv.forwardV p.out_conv u4


/-- A concrete batch-normalization parameter set used for concrete
evaluations. -/
def testBN : BNW := ⟨fun _ => 1, fun _ => 0, fun _ => 0, fun _ => 1⟩

/-- A concrete `DoubleConv` weight set used for concrete evaluations. -/
def testDCW : DCW := ⟨fun _ _ _ _ => 0, testBN, fun _ _ _ _ => 0, testBN⟩

/-- A concrete `Up` weight set used for concrete evaluations. -/
def testUpW : UpW := ⟨fun _ _ _ _ => 0, fun _ => 0, testDCW⟩

/-- A concrete `OutConv` weight set used for concrete evaluations. -/
def testOutW : OutW := ⟨fun _ _ _ _ => 0, fun _ => 0⟩

/-- A concrete full `UNet` weight set used for concrete evaluations. -/
def testUNetW : UNetW :=
  ⟨testDCW, testDCW, testDCW, testDCW, testDCW, testUpW, testUpW, testUpW,
   testUpW, testOutW⟩

/-- A concrete 1x1x1x1 zero tensor used for concrete evaluations. -/
def testTensor : Tensor := ⟨⟨1, 1, 1, 1⟩, fun _ _ _ _ => 0⟩

theorem conv2dShape_k3 (cin cout : ℕ) (s : Shape) :
    conv2dShape cin cout 3 1 s =
      if s.c = cin ∧ 1 ≤ s.h ∧ 1 ≤ s.w then some ⟨s.n, cout, s.h, s.w⟩
      else none := by
  unfold conv2dShape
  by_cases h : s.c = cin ∧ 1 ≤ s.h ∧ 1 ≤ s.w
  · rw [if_pos ⟨h.1, by omega, by omega⟩, if_pos h]
    simp only [Option.some.injEq, Shape.mk.injEq, true_and]
    omega
  · rw [if_neg fun hc => h ⟨hc.1, by omega, by omega⟩, if_neg h]

theorem conv2dShape_k1 (cin cout : ℕ) (s : Shape) :
    conv2dShape cin cout 1 0 s =
      if s.c = cin ∧ 1 ≤ s.h ∧ 1 ≤ s.w then some ⟨s.n, cout, s.h, s.w⟩
      else none := by
  unfold conv2dShape
  by_cases h : s.c = cin ∧ 1 ≤ s.h ∧ 1 ≤ s.w
  · rw [if_pos ⟨h.1, by omega, by omega⟩, if_pos h]
    simp only [Option.some.injEq, Shape.mk.injEq, true_and]
    omega
  · rw [if_neg fun hc => h ⟨hc.1, by omega, by omega⟩, if_neg h]

theorem dcForward_eq (m : DoubleConv) (s : Shape) :
    m.forward s =
      if s.c = m.in_channels ∧ 1 ≤ s.h ∧ 1 ≤ s.w then
        some ⟨s.n, m.out_channels, s.h, s.w⟩
      else none := by
  unfold DoubleConv.forward
  rw [conv2dShape_k3]
  split_ifs with h
  · simp [batchNorm2dShape, reluShape, conv2dShape_k3, h.2.1, h.2.2]
  · rfl

theorem downForward_eq (m : Down) (s : Shape) :
    m.forward s =
      if s.c = m.in_channels ∧ 2 ≤ s.h ∧ 2 ≤ s.w then
        some ⟨s.n, m.out_channels, s.h / 2, s.w / 2⟩
      else none := by
  obtain ⟨n, c, h, w⟩ := s
  simp only [Down.forward, maxPool2dShape, dcForward_eq, Down.conv,
    DoubleConv.make]
  by_cases hp : 2 ≤ h ∧ 2 ≤ w
  · rw [if_pos hp, Option.some_bind]
    by_cases hc : c = m.in_channels
    · rw [if_pos ⟨hc, by dsimp only; omega, by dsimp only; omega⟩, if_pos ⟨hc, hp⟩]
      simp only [Option.some.injEq, Shape.mk.injEq, true_and]
      omega
    · rw [if_neg fun hcc => hc hcc.1, if_neg fun hcc => hc hcc.1]
  · rw [if_neg fun hcc => hp hcc, Option.none_bind,
      if_neg fun hcc => hp hcc.2]

theorem Up.padToMatch_eq (x1 x2 : Shape) :
    Up.padToMatch x1 x2 = some ⟨x1.n, x1.c, x2.h, x2.w⟩ := by
  simp only [Up.padToMatch, padShape]
  generalize (((x2.h : ℤ) - (x1.h : ℤ)).fdiv 2) = fy
  generalize (((x2.w : ℤ) - (x1.w : ℤ)).fdiv 2) = fx
  rw [if_pos (by constructor <;> omega)]
  simp only [Option.some.injEq, Shape.mk.injEq, true_and]
  constructor <;> omega

theorem Up.forward_eq_bilinear (m : Up) (hb : m.bilinear = true) (x1 x2 : Shape) :
    m.forward x1 x2 =
      if x2.n = x1.n ∧ x2.c + x1.c = m.in_channels ∧ 1 ≤ x2.h ∧ 1 ≤ x2.w then
        some ⟨x2.n, m.out_channels, x2.h, x2.w⟩
      else none := by
  obtain ⟨n1, c1, h1, w1⟩ := x1
  obtain ⟨n2, c2, h2, w2⟩ := x2
  simp only [Up.forward, Up.upLayer, hb, if_true, Option.some_bind,
    Up.padToMatch_eq, upsampleShape, catShape, Up.conv, DoubleConv.make,
    dcForward_eq]
  by_cases hn : n2 = n1
  · rw [if_pos ⟨hn, trivial, trivial⟩, Option.some_bind]
    by_cases hc : c2 + c1 = m.in_channels ∧ 1 ≤ h2 ∧ 1 ≤ w2
    · rw [if_pos (by dsimp only; exact hc), if_pos ⟨hn, hc⟩]
    · rw [if_neg (by dsimp only; exact hc), if_neg fun hcc => hc hcc.2]
  · rw [if_neg fun hcc => hn hcc.1, Option.none_bind,
      if_neg fun hcc => hn hcc.1]

theorem Up.forward_eq_tconv (m : Up) (hb : m.bilinear = false) (x1 x2 : Shape) :
    m.forward x1 x2 =
      if x1.c = m.in_channels ∧ 1 ≤ x1.h ∧ 1 ≤ x1.w ∧ x2.n = x1.n ∧
          x2.c + m.in_channels / 2 = m.in_channels ∧ 1 ≤ x2.h ∧ 1 ≤ x2.w then
        some ⟨x2.n, m.out_channels, x2.h, x2.w⟩
      else none := by
  obtain ⟨n1, c1, h1, w1⟩ := x1
  obtain ⟨n2, c2, h2, w2⟩ := x2
  simp only [Up.forward, Up.upLayer, hb, Bool.false_eq_true, if_false,
    convTranspose2dShape, catShape, Up.conv, DoubleConv.make,
    dcForward_eq]
  by_cases htc : c1 = m.in_channels ∧ 1 ≤ h1 ∧ 1 ≤ w1
  · rw [if_pos htc]
    simp only [Option.some_bind, Up.padToMatch_eq]
    by_cases hn : n2 = n1
    · rw [if_pos ⟨hn, trivial, trivial⟩, Option.some_bind]
      by_cases hc : c2 + m.in_channels / 2 = m.in_channels ∧ 1 ≤ h2 ∧ 1 ≤ w2
      · rw [if_pos hc, if_pos ⟨htc.1, htc.2.1, htc.2.2, hn, hc⟩]
      · rw [if_neg hc, if_neg fun hcc => hc hcc.2.2.2.2]
    · rw [if_neg fun hcc => hn hcc.1, Option.none_bind,
        if_neg fun hcc => hn hcc.2.2.2.1]
  · rw [if_neg htc, Option.none_bind,
      if_neg fun hcc => htc ⟨hcc.1, hcc.2.1, hcc.2.2.1⟩]

theorem UNet.encode_eq (m : UNet) (s : Shape) :
    m.encode s =
      if s.c = m.in_channels ∧ 16 ≤ s.h ∧ 16 ≤ s.w then
        some (⟨s.n, m.base_c, s.h, s.w⟩,
              ⟨s.n, m.base_c * 2, s.h / 2, s.w / 2⟩,
              ⟨s.n, m.base_c * 4, s.h / 4, s.w / 4⟩,
              ⟨s.n, m.base_c * 8, s.h / 8, s.w / 8⟩,
              ⟨s.n, m.base_c * 16 / m.factor, s.h / 16, s.w / 16⟩)
      else none := by
  obtain ⟨n, c, h, w⟩ := s
  unfold UNet.encode
  rw [dcForward_eq]
  dsimp only [UNet.in_conv, DoubleConv.make]
  by_cases h1 : c = m.in_channels ∧ 1 ≤ h ∧ 1 ≤ w
  · rw [if_pos h1, Option.some_bind, downForward_eq]
    dsimp only [UNet.down1]
    by_cases h2 : 2 ≤ h ∧ 2 ≤ w
    · rw [if_pos ⟨rfl, h2.1, h2.2⟩, Option.some_bind, downForward_eq]
      dsimp only [UNet.down2]
      by_cases h3 : 2 ≤ h / 2 ∧ 2 ≤ w / 2
      · rw [if_pos ⟨rfl, h3.1, h3.2⟩, Option.some_bind, downForward_eq]
        dsimp only [UNet.down3]
        by_cases h4 : 2 ≤ h / 2 / 2 ∧ 2 ≤ w / 2 / 2
        · rw [if_pos ⟨rfl, h4.1, h4.2⟩, Option.some_bind, downForward_eq]
          dsimp only [UNet.down4]
          by_cases h5 : 2 ≤ h / 2 / 2 / 2 ∧ 2 ≤ w / 2 / 2 / 2
          · rw [if_pos ⟨rfl, h5.1, h5.2⟩, Option.map_some',
              if_pos ⟨h1.1, by omega, by omega⟩]
            simp only [Option.some.injEq, Prod.mk.injEq, Shape.mk.injEq]
            repeat' apply And.intro
            all_goals first | rfl | trivial | omega
          · rw [if_neg fun hcc => h5 ⟨hcc.2.1, hcc.2.2⟩, Option.map_none',
              if_neg fun hcc => h5 ⟨by omega, by omega⟩]
        · rw [if_neg fun hcc => h4 ⟨hcc.2.1, hcc.2.2⟩, Option.none_bind,
            if_neg fun hcc => h4 ⟨by omega, by omega⟩]
      · rw [if_neg fun hcc => h3 ⟨hcc.2.1, hcc.2.2⟩, Option.none_bind,
          if_neg fun hcc => h3 ⟨by omega, by omega⟩]
    · rw [if_neg fun hcc => h2 ⟨hcc.2.1, hcc.2.2⟩, Option.none_bind,
        if_neg fun hcc => h2 ⟨by omega, by omega⟩]
  · rw [if_neg h1, Option.none_bind,
      if_neg fun hcc => h1 ⟨hcc.1, by omega, by omega⟩]

theorem UNet.dec1_eq (m : UNet) (s : Shape) :
    m.dec1 s =
      if s.c = m.in_channels ∧ 16 ≤ s.h ∧ 16 ≤ s.w then
        some ⟨s.n, m.base_c * 8 / m.factor, s.h / 8, s.w / 8⟩
      else none := by
  obtain ⟨n, c, h, w⟩ := s
  unfold UNet.dec1
  rw [UNet.encode_eq]
  dsimp only
  split_ifs with hc
  · rw [Option.some_bind]
    cases hb : m.bilinear
    · simp only [UNet.up1, UNet.factor, hb, Bool.false_eq_true, if_false]
      rw [Up.forward_eq_tconv _ rfl,
        if_pos (by dsimp only; refine ⟨?_, ?_, ?_, ?_, ?_, ?_, ?_⟩ <;> omega)]
    · simp only [UNet.up1, UNet.factor, hb, if_true]
      rw [Up.forward_eq_bilinear _ rfl,
        if_pos (by dsimp only; refine ⟨?_, ?_, ?_, ?_⟩ <;> omega)]
  · rw [Option.none_bind]

theorem UNet.dec2_eq (m : UNet) (s : Shape) :
    m.dec2 s =
      if s.c = m.in_channels ∧ 16 ≤ s.h ∧ 16 ≤ s.w then
        some ⟨s.n, m.base_c * 4 / m.factor, s.h / 4, s.w / 4⟩
      else none := by
  obtain ⟨n, c, h, w⟩ := s
  unfold UNet.dec2
  rw [UNet.encode_eq, UNet.dec1_eq]
  dsimp only
  split_ifs with hc
  · rw [Option.some_bind, Option.some_bind]
    cases hb : m.bilinear
    · simp only [UNet.up2, UNet.factor, hb, Bool.false_eq_true, if_false]
      rw [Up.forward_eq_tconv _ rfl,
        if_pos (by dsimp only; refine ⟨?_, ?_, ?_, ?_, ?_, ?_, ?_⟩ <;> omega)]
    · simp only [UNet.up2, UNet.factor, hb, if_true]
      rw [Up.forward_eq_bilinear _ rfl,
        if_pos (by dsimp only; refine ⟨?_, ?_, ?_, ?_⟩ <;> omega)]
  · rw [Option.none_bind]

theorem UNet.dec3_eq (m : UNet) (s : Shape) :
    m.dec3 s =
      if s.c = m.in_channels ∧ 16 ≤ s.h ∧ 16 ≤ s.w then
        some ⟨s.n, m.base_c * 2 / m.factor, s.h / 2, s.w / 2⟩
      else none := by
  obtain ⟨n, c, h, w⟩ := s
  unfold UNet.dec3
  rw [UNet.encode_eq, UNet.dec2_eq]
  dsimp only
  split_ifs with hc
  · rw [Option.some_bind, Option.some_bind]
    cases hb : m.bilinear
    · simp only [UNet.up3, UNet.factor, hb, Bool.false_eq_true, if_false]
      rw [Up.forward_eq_tconv _ rfl,
        if_pos (by dsimp only; refine ⟨?_, ?_, ?_, ?_, ?_, ?_, ?_⟩ <;> omega)]
    · simp only [UNet.up3, UNet.factor, hb, if_true]
      rw [Up.forward_eq_bilinear _ rfl,
        if_pos (by dsimp only; refine ⟨?_, ?_, ?_, ?_⟩ <;> omega)]
  · rw [Option.none_bind]

theorem UNet.dec4_eq (m : UNet) (s : Shape) :
    m.dec4 s =
      if s.c = m.in_channels ∧ 16 ≤ s.h ∧ 16 ≤ s.w then
        some ⟨s.n, m.base_c, s.h, s.w⟩
      else none := by
  obtain ⟨n, c, h, w⟩ := s
  unfold UNet.dec4
  rw [UNet.encode_eq, UNet.dec3_eq]
  dsimp only
  split_ifs with hc
  · rw [Option.some_bind, Option.some_bind]
    cases hb : m.bilinear
    · simp only [UNet.up4, UNet.factor, hb, Bool.false_eq_true, if_false]
      rw [Up.forward_eq_tconv _ rfl,
        if_pos (by dsimp only; refine ⟨?_, ?_, ?_, ?_, ?_, ?_, ?_⟩ <;> omega)]
    · simp only [UNet.up4, UNet.factor, hb, if_true]
      rw [Up.forward_eq_bilinear _ rfl,
        if_pos (by dsimp only; refine ⟨?_, ?_, ?_, ?_⟩ <;> omega)]
  · rw [Option.none_bind]

theorem UNet.forward_via (m : UNet) (s : Shape) :
    m.forward s = (m.dec4 s).bind fun u => m.out_conv.forward u := by
  unfold UNet.forward UNet.dec4 UNet.dec3 UNet.dec2 UNet.dec1 UNet.encode
  cases hx1 : m.in_conv.forward s with
  | none => simp only [hx1, Option.none_bind]
  | some x1 =>
    simp only [hx1, Option.some_bind]
    cases hx2 : m.down1.forward x1 with
    | none => simp only [hx2, Option.none_bind]
    | some x2 =>
      simp only [hx2, Option.some_bind]
      cases hx3 : m.down2.forward x2 with
      | none => simp only [hx3, Option.none_bind]
      | some x3 =>
        simp only [hx3, Option.some_bind]
        cases hx4 : m.down3.forward x3 with
        | none => simp only [hx4, Option.none_bind]
        | some x4 =>
          simp only [hx4, Option.some_bind]
          cases hx5 : m.down4.forward x4 with
          | none => simp only [hx5, Option.map_none', Option.none_bind]
          | some x5 =>
            simp only [hx5, Option.map_some', Option.some_bind]
            cases hu1 : m.up1.forward x5 x4 with
            | none => simp only [hu1, Option.none_bind]
            | some u1 =>
              simp only [hu1, Option.some_bind]
              cases hu2 : m.up2.forward u1 x3 with
              | none => simp only [hu2, Option.none_bind]
              | some u2 =>
                simp only [hu2, Option.some_bind]
                cases hu3 : m.up3.forward u2 x2 with
                | none => simp only [hu3, Option.none_bind]
                | some u3 =>
                  simp only [hu3, Option.some_bind]

theorem unetForward_eq (m : UNet) (s : Shape) :
    m.forward s =
      if s.c = m.in_channels ∧ 16 ≤ s.h ∧ 16 ≤ s.w then
        some ⟨s.n, m.num_classes, s.h, s.w⟩
      else none := by
  obtain ⟨n, c, h, w⟩ := s
  rw [UNet.forward_via, UNet.dec4_eq]
  dsimp only
  split_ifs with hc
  · rw [Option.some_bind]
    unfold OutConv.forward
    rw [conv2dShape_k1,
      if_pos (by dsimp only [UNet.out_conv]; exact ⟨rfl, by omega, by omega⟩)]
    simp only [Option.some.injEq, Shape.mk.injEq, UNet.out_conv]
  · rw [Option.none_bind]

theorem Up.catted_eq_bilinear (m : Up) (hb : m.bilinear = true) (x1 x2 : Shape) :
    m.catted x1 x2 =
      if x2.n = x1.n then some ⟨x2.n, x2.c + x1.c, x2.h, x2.w⟩ else none := by
  obtain ⟨n1, c1, h1, w1⟩ := x1
  obtain ⟨n2, c2, h2, w2⟩ := x2
  simp only [Up.catted, Up.upLayer, hb, if_true, Option.some_bind,
    Up.padToMatch_eq, upsampleShape, catShape]
  by_cases hn : n2 = n1
  · rw [if_pos ⟨hn, trivial, trivial⟩, if_pos hn]
  · rw [if_neg fun hcc => hn hcc.1, if_neg hn]

theorem Up.catted_eq_tconv (m : Up) (hb : m.bilinear = false) (x1 x2 : Shape) :
    m.catted x1 x2 =
      if x1.c = m.in_channels ∧ 1 ≤ x1.h ∧ 1 ≤ x1.w ∧ x2.n = x1.n then
        some ⟨x2.n, x2.c + m.in_channels / 2, x2.h, x2.w⟩
      else none := by
  obtain ⟨n1, c1, h1, w1⟩ := x1
  obtain ⟨n2, c2, h2, w2⟩ := x2
  simp only [Up.catted, Up.upLayer, hb, Bool.false_eq_true, if_false,
    convTranspose2dShape, catShape]
  by_cases htc : c1 = m.in_channels ∧ 1 ≤ h1 ∧ 1 ≤ w1
  · rw [if_pos htc]
    simp only [Option.some_bind, Up.padToMatch_eq]
    by_cases hn : n2 = n1
    · rw [if_pos ⟨hn, trivial, trivial⟩, if_pos ⟨htc.1, htc.2.1, htc.2.2, hn⟩]
    · rw [if_neg fun hcc => hn hcc.1, if_neg fun hcc => hn hcc.2.2.2]
  · rw [if_neg htc, Option.none_bind,
      if_neg fun hcc => htc ⟨hcc.1, hcc.2.1, hcc.2.2.1⟩]

theorem shape_of_mapMk (o : Option Shape) (f : Shape → ℕ → ℕ → ℕ → ℕ → ℚ) :
    ((o.map fun sh => Tensor.mk sh (f sh)).map Tensor.shape) = o := by
  cases o <;> rfl

theorem conv2dV_shape (cin cout k pad : ℕ) (wt : ℕ → ℕ → ℕ → ℕ → ℚ)
    (bs : ℕ → ℚ) (x : Tensor) :
    (conv2dV cin cout k pad wt bs x).map Tensor.shape =
      conv2dShape cin cout k pad x.shape :=
  shape_of_mapMk _ _

theorem batchNorm2dV_shape (nf : ℕ) (p : BNW) (x : Tensor) :
    (batchNorm2dV nf p x).map Tensor.shape = batchNorm2dShape nf x.shape :=
  shape_of_mapMk _ _

theorem maxPool2dV_shape (k stride : ℕ) (x : Tensor) :
    (maxPool2dV k stride x).map Tensor.shape = maxPool2dShape k stride x.shape :=
  shape_of_mapMk _ _

theorem convTranspose2dV_shape (cin cout k stride : ℕ)
    (wt : ℕ → ℕ → ℕ → ℕ → ℚ) (bs : ℕ → ℚ) (x : Tensor) :
    (convTranspose2dV cin cout k stride wt bs x).map Tensor.shape =
      convTranspose2dShape cin cout k stride x.shape :=
  shape_of_mapMk _ _

theorem padV_shape (l r t b : ℤ) (x : Tensor) :
    (padV l r t b x).map Tensor.shape = padShape l r t b x.shape :=
  shape_of_mapMk _ _

theorem catV_shape (a b : Tensor) :
    (catV a b).map Tensor.shape = catShape a.shape b.shape :=
  shape_of_mapMk _ _

theorem reluV_shape (x : Tensor) : (reluV x).shape = x.shape := rfl

theorem upsampleBilinearV_shape (scale : ℕ) (x : Tensor) :
    (upsampleBilinearV scale x).shape = upsampleShape scale x.shape := rfl

theorem map_shape_bind (o : Option Tensor) (f : Tensor → Option Tensor)
    (g : Shape → Option Shape)
    (hfg : ∀ t, (f t).map Tensor.shape = g t.shape) :
    ((o.bind f).map Tensor.shape) = (o.map Tensor.shape).bind g := by
  cases o <;> simp [hfg]

theorem dcForwardV_shape (m : DoubleConv) (p : DCW) (x : Tensor) :
    (m.forwardV p x).map Tensor.shape = m.forward x.shape := by
  unfold DoubleConv.forwardV DoubleConv.forward
  cases h1 : conv2dShape m.in_channels m.mid_channels 3 1 x.shape with
  | none => simp [conv2dV, h1]
  | some s1 =>
    simp only [conv2dV, h1, Option.map_some', Option.some_bind]
    cases h2 : batchNorm2dShape m.mid_channels s1 with
    | none => simp [batchNorm2dV, h2]
    | some s2 =>
      simp only [batchNorm2dV, h2, Option.map_some', Option.some_bind,
        reluV, reluShape]
      cases h3 : conv2dShape m.mid_channels m.out_channels 3 1 s2 with
      | none => simp [conv2dV, h3]
      | some s3 =>
        simp only [conv2dV, h3, Option.map_some', Option.some_bind]
        cases h4 : batchNorm2dShape m.out_channels s3 with
        | none => simp [batchNorm2dV, h4]
        | some s4 =>
          simp only [batchNorm2dV, h4, Option.map_some']

theorem downForwardV_shape (m : Down) (p : DCW) (x : Tensor) :
    (m.forwardV p x).map Tensor.shape = m.forward x.shape := by
  unfold Down.forwardV Down.forward
  have h1 := maxPool2dV_shape 2 2 x
  cases hv : maxPool2dV 2 2 x with
  | none =>
    rw [hv, Option.map_none'] at h1
    rw [Option.none_bind, ← h1, Option.none_bind]
    rfl
  | some t1 =>
    rw [hv, Option.map_some'] at h1
    rw [Option.some_bind, ← h1, Option.some_bind]
    exact dcForwardV_shape m.conv p t1

theorem Up.upLayerV_shape (m : Up) (p : UpW) (x : Tensor) :
    (m.upLayerV p x).map Tensor.shape = m.upLayer x.shape := by
  unfold Up.upLayerV Up.upLayer
  cases hb : m.bilinear
  · simp only [Bool.false_eq_true, if_false]
    exact convTranspose2dV_shape _ _ _ _ _ _ _
  · simp only [if_true, Option.map_some', upsampleBilinearV_shape]

theorem Up.padToMatchV_shape (x1 x2 : Tensor) :
    (Up.padToMatchV x1 x2).map Tensor.shape = Up.padToMatch x1.shape x2.shape := by
  simp only [Up.padToMatchV, Up.padToMatch]
  exact padV_shape _ _ _ _ _

theorem upForwardV_shape (m : Up) (p : UpW) (x1 x2 : Tensor) :
    (m.forwardV p x1 x2).map Tensor.shape = m.forward x1.shape x2.shape := by
  unfold Up.forwardV Up.forward
  have h3 : ∀ t3 : Tensor,
      (m.conv.forwardV p.conv t3).map Tensor.shape = m.conv.forward t3.shape :=
    fun t3 => dcForwardV_shape m.conv p.conv t3
  have h2 : ∀ t2 : Tensor,
      ((catV x2 t2).bind fun x => m.conv.forwardV p.conv x).map Tensor.shape =
        (catShape x2.shape t2.shape).bind fun x => m.conv.forward x := by
    intro t2
    rw [map_shape_bind _ _ (fun sh => m.conv.forward sh) h3, catV_shape]
  have h1 : ∀ t : Tensor,
      ((Up.padToMatchV t x2).bind fun pd =>
          (catV x2 pd).bind fun x => m.conv.forwardV p.conv x).map Tensor.shape =
        (Up.padToMatch t.shape x2.shape).bind fun pd =>
          (catShape x2.shape pd).bind fun x => m.conv.forward x := by
    intro t
    rw [map_shape_bind _ _
      (fun sh => (catShape x2.shape sh).bind fun x => m.conv.forward x) h2,
      Up.padToMatchV_shape]
  rw [map_shape_bind _ _
    (fun sh => (Up.padToMatch sh x2.shape).bind fun pd =>
      (catShape x2.shape pd).bind fun x => m.conv.forward x) h1,
    Up.upLayerV_shape]

theorem outForwardV_shape (m : OutConv) (p : OutW) (x : Tensor) :
    (m.forwardV p x).map Tensor.shape = m.forward x.shape :=
  conv2dV_shape _ _ _ _ _ _ _

theorem unetForwardV_shape (m : UNet) (p : UNetW) (x : Tensor) :
    (m.forwardV p x).map Tensor.shape = m.forward x.shape := by
  unfold UNet.forwardV UNet.forward
  have h1 := dcForwardV_shape m.in_conv p.in_conv x
  cases hv1 : m.in_conv.forwardV p.in_conv x with
  | none =>
    rw [hv1, Option.map_none'] at h1
    rw [Option.none_bind, ← h1, Option.none_bind]
    rfl
  | some t1 =>
    rw [hv1, Option.map_some'] at h1
    rw [Option.some_bind, ← h1, Option.some_bind]
    have h2 := downForwardV_shape m.down1 p.down1 t1
    cases hv2 : m.down1.forwardV p.down1 t1 with
    | none =>
      rw [hv2, Option.map_none'] at h2
      rw [Option.none_bind, ← h2, Option.none_bind]
      rfl
    | some t2 =>
      rw [hv2, Option.map_some'] at h2
      rw [Option.some_bind, ← h2, Option.some_bind]
      have h3 := downForwardV_shape m.down2 p.down2 t2
      cases hv3 : m.down2.forwardV p.down2 t2 with
      | none =>
        rw [hv3, Option.map_none'] at h3
        rw [Option.none_bind, ← h3, Option.none_bind]
        rfl
      | some t3 =>
        rw [hv3, Option.map_some'] at h3
        rw [Option.some_bind, ← h3, Option.some_bind]
        have h4 := downForwardV_shape m.down3 p.down3 t3
        cases hv4 : m.down3.forwardV p.down3 t3 with
        | none =>
          rw [hv4, Option.map_none'] at h4
          rw [Option.none_bind, ← h4, Option.none_bind]
          rfl
        | some t4 =>
          rw [hv4, Option.map_some'] at h4
          rw [Option.some_bind, ← h4, Option.some_bind]
          have h5 := downForwardV_shape m.down4 p.down4 t4
          cases hv5 : m.down4.forwardV p.down4 t4 with
          | none =>
            rw [hv5, Option.map_none'] at h5
            rw [Option.none_bind, ← h5, Option.none_bind]
            rfl
          | some t5 =>
            rw [hv5, Option.map_some'] at h5
            rw [Option.some_bind, ← h5, Option.some_bind]
            have g1 := upForwardV_shape m.up1 p.up1 t5 t4
            cases hu1 : m.up1.forwardV p.up1 t5 t4 with
            | none =>
              rw [hu1, Option.map_none'] at g1
              rw [Option.none_bind, ← g1, Option.none_bind]
              rfl
            | some u1 =>
              rw [hu1, Option.map_some'] at g1
              rw [Option.some_bind, ← g1, Option.some_bind]
              have g2 := upForwardV_shape m.up2 p.up2 u1 t3
              cases hu2 : m.up2.forwardV p.up2 u1 t3 with
              | none =>
                rw [hu2, Option.map_none'] at g2
                rw [Option.none_bind, ← g2, Option.none_bind]
                rfl
              | some u2 =>
                rw [hu2, Option.map_some'] at g2
                rw [Option.some_bind, ← g2, Option.some_bind]
                have g3 := upForwardV_shape m.up3 p.up3 u2 t2
                cases hu3 : m.up3.forwardV p.up3 u2 t2 with
                | none =>
                  rw [hu3, Option.map_none'] at g3
                  rw [Option.none_bind, ← g3, Option.none_bind]
                  rfl
                | some u3 =>
                  rw [hu3, Option.map_some'] at g3
                  rw [Option.some_bind, ← g3, Option.some_bind]
                  have g4 := upForwardV_shape m.up4 p.up4 u3 t1
                  cases hu4 : m.up4.forwardV p.up4 u3 t1 with
                  | none =>
                    rw [hu4, Option.map_none'] at g4
                    rw [Option.none_bind, ← g4, Option.none_bind]
                    rfl
                  | some u4 =>
                    rw [hu4, Option.map_some'] at g4
                    rw [Option.some_bind, ← g4, Option.some_bind]
                    exact outForwardV_shape m.out_conv p.out_conv u4

/-- C1 (counterexample): the claim quantifies over every H and W divisible
by 16, but at H = W = 0 (divisible by 16) the first convolution raises
(kernel 3 exceeds the padded input 2), so the forward pass does not return
a tensor of shape (N, num_classes, 0, 0). -/
theorem c1_zero_counterexample :
    ¬ (UNet.forward (UNet.make 1 4 true 64) ⟨1, 1, 0, 0⟩ =
        some ⟨1, 4, 0, 0⟩) := by decide

/-- C1 (amended): for every configuration (input channels, class count,
base width, either upsampling strategy) and every input shape
(N, C_in, H, W) with C_in the configured input channel count and H, W
positive and divisible by 16, the forward pass returns exactly
(N, num_classes, H, W). -/
theorem c1_output_shape (ic nc : ℕ) (bil : Bool) (bc : ℕ) (s : Shape)
    (hc : s.c = ic) (hdh : 16 ∣ s.h) (hdw : 16 ∣ s.w)
    (hph : 0 < s.h) (hpw : 0 < s.w) :
    UNet.forward (UNet.make ic nc bil bc) s = some ⟨s.n, nc, s.h, s.w⟩ := by
  rw [unetForward_eq, if_pos ⟨hc, by omega, by omega⟩]
  rfl

/-- C1 (witness): the spec's concrete scenario, base width 64, input
(1, 1, 256, 256), bilinear strategy, 4 classes. -/
theorem c1_output_shape_witness :
    UNet.forward (UNet.make 1 4 true 64) ⟨1, 1, 256, 256⟩ =
      some ⟨1, 4, 256, 256⟩ :=
  c1_output_shape 1 4 true 64 ⟨1, 1, 256, 256⟩ rfl (by decide) (by decide)
    (by decide) (by decide)

/-- C2: the UpBlock forward pass equals the five-step algorithm of the
spec, executed in order: upsample (corner-aligned bilinear interpolation or
channel-halving transpose-convolution), compute the spatial differences to
x2, pad by difference // 2 on the leading edge and the remainder on the
trailing edge per axis, concatenate x2 first, and apply one ConvBlock. -/
theorem c2_up_steps (m : Up) (p : UpW) (x1 x2 : Tensor) :
    m.forwardV p x1 x2 = Up.forwardSpec m p x1 x2 := rfl

/-- C5: a ConvBlock with input channels C_in and output channels C_out maps
any tensor with C_in channels and positive spatial size to one with C_out
channels and the same spatial size; the intermediate channel count defaults
to C_out when none is given and is taken as given otherwise. -/
theorem c5_convblock (cin cout mid : ℕ) (mo : Option ℕ) (s : Shape)
    (hc : s.c = cin) (hh : 1 ≤ s.h) (hw : 1 ≤ s.w) :
    (DoubleConv.make cin cout mo).forward s = some ⟨s.n, cout, s.h, s.w⟩ ∧
    (DoubleConv.make cin cout none).mid_channels = cout ∧
    (DoubleConv.make cin cout (some mid)).mid_channels = mid := by
  refine ⟨?_, rfl, rfl⟩
  rw [dcForward_eq, if_pos ⟨hc, hh, hw⟩]
  rfl

/-- C5 (witness): a ConvBlock mapping 2 channels to 3 on a 1x2x5x7 input. -/
theorem c5_convblock_witness :
    (DoubleConv.make 2 3 none).forward ⟨1, 2, 5, 7⟩ = some ⟨1, 3, 5, 7⟩ ∧
    (DoubleConv.make 2 3 none).mid_channels = 3 ∧
    (DoubleConv.make 2 3 (some 9)).mid_channels = 9 :=
  c5_convblock 2 3 9 none ⟨1, 2, 5, 7⟩ rfl (by decide) (by decide)

/-- C6: the DownBlock is max-pooling (2x2, stride 2) followed by one
ConvBlock mapping C_in to C_out, and on an input with matching channels and
spatial size at least 2 it outputs C_out channels at spatial size
(H / 2, W / 2) with flooring division (an odd dimension shrinks by one). -/
theorem c6_downblock (m : Down) (s : Shape) (hc : s.c = m.in_channels)
    (hh : 2 ≤ s.h) (hw : 2 ≤ s.w) :
    m.forward s = (maxPool2dShape 2 2 s).bind (fun p => m.conv.forward p) ∧
    m.forward s = some ⟨s.n, m.out_channels, s.h / 2, s.w / 2⟩ := by
  refine ⟨rfl, ?_⟩
  rw [downForward_eq, if_pos ⟨hc, hh, hw⟩]

/-- C6 (witness): a DownBlock mapping 3 channels to 5 on a 1x3x5x7 input;
both odd spatial dimensions shrink by one before halving. -/
theorem c6_downblock_witness :
    Down.forward ⟨3, 5⟩ ⟨1, 3, 5, 7⟩ =
      (maxPool2dShape 2 2 ⟨1, 3, 5, 7⟩).bind
        (fun p => (Down.conv ⟨3, 5⟩).forward p) ∧
    Down.forward ⟨3, 5⟩ ⟨1, 3, 5, 7⟩ = some ⟨1, 5, 2, 3⟩ :=
  c6_downblock ⟨3, 5⟩ ⟨1, 3, 5, 7⟩ rfl (by decide) (by decide)

/-- C9: the pad amounts of the UpBlock always sum to the full difference
per axis under Python flooring division, for differences of any sign, so
the padded (or, for negative amounts, cropped) tensor has exactly x2's
spatial height and width. -/
theorem c9_pad_reconciles (x1 x2 : Shape) (d : ℤ) :
    Up.padToMatch x1 x2 = some ⟨x1.n, x1.c, x2.h, x2.w⟩ ∧
    d.fdiv 2 + (d - d.fdiv 2) = d :=
  ⟨Up.padToMatch_eq x1 x2, by ring⟩

/-- C3 (counterexample): with the bilinear strategy and base width 64 the
encoder's per-level output channel widths are (64, 128, 256, 512, 512),
not (64, 128, 256, 512, 1024): the deepest encoder block `down4` already
carries the channel-reduction factor (`base_c * 16 // factor`). -/
theorem c3_counterexample :
    ¬ ((UNet.make 1 4 true 64).encoderWidths =
        [64, 64 * 2, 64 * 4, 64 * 8, 64 * 16]) := by decide

/-- C3 (amended): with the transpose-convolution strategy the encoder
widths are (b, 2b, 4b, 8b, 16b) and the decoder mirrors them in reverse
(8b, 4b, 2b, b); with the interpolation strategy the channel-reduction
factor of 2 is applied to the deepest encoder level (8b instead of 16b)
and to the first three decoder levels (4b, 2b, b), while the final decoder
level outputs b in both strategies. -/
theorem c3_channel_widths (ic nc bc : ℕ) :
    (UNet.make ic nc false bc).encoderWidths =
      [bc, bc * 2, bc * 4, bc * 8, bc * 16] ∧
    (UNet.make ic nc false bc).decoderWidths =
      [bc * 8, bc * 4, bc * 2, bc] ∧
    (UNet.make ic nc true bc).encoderWidths =
      [bc, bc * 2, bc * 4, bc * 8, bc * 8] ∧
    (UNet.make ic nc true bc).decoderWidths =
      [bc * 4, bc * 2, bc, bc] := by
  simp only [UNet.encoderWidths, UNet.decoderWidths, UNet.in_conv,
    UNet.down1, UNet.down2, UNet.down3, UNet.down4, UNet.up1, UNet.up2,
    UNet.up3, UNet.up4, UNet.factor, UNet.make, DoubleConv.make,
    Bool.false_eq_true, if_false, if_true, List.cons.injEq, and_true]
  repeat' apply And.intro
  all_goals first | rfl | trivial | omega

/-- C7: flipping only the upsampling strategy flag never changes the
result of the shape semantics of the forward pass (in particular the
output shape), and whenever the forward pass returns a tensor its channel
count is the configured class count, for either strategy. -/
theorem c7_strategy_shape (ic nc bc : ℕ) (s : Shape) (out : Shape) :
    UNet.forward (UNet.make ic nc true bc) s =
      UNet.forward (UNet.make ic nc false bc) s ∧
    (UNet.forward (UNet.make ic nc true bc) s = some out → out.c = nc) ∧
    (UNet.forward (UNet.make ic nc false bc) s = some out → out.c = nc) := by
  constructor
  · rw [unetForward_eq, unetForward_eq]
    dsimp only [UNet.make]
  constructor
  · intro hsome
    rw [unetForward_eq] at hsome
    split_ifs at hsome with hcnd
    cases hsome
    rfl
  · intro hsome
    rw [unetForward_eq] at hsome
    split_ifs at hsome with hcnd
    cases hsome
    rfl

/-- C7 (witness): at base width 2, 3 classes, input (1, 1, 16, 16), both
strategies give the same output, of channel count 3. -/
theorem c7_strategy_shape_witness :
    UNet.forward (UNet.make 1 3 true 2) ⟨1, 1, 16, 16⟩ =
      UNet.forward (UNet.make 1 3 false 2) ⟨1, 1, 16, 16⟩ ∧
    UNet.forward (UNet.make 1 3 true 2) ⟨1, 1, 16, 16⟩ =
      some ⟨1, 3, 16, 16⟩ ∧
    (⟨1, 3, 16, 16⟩ : Shape).c = 3 :=
  ⟨(c7_strategy_shape 1 3 2 ⟨1, 1, 16, 16⟩ ⟨1, 3, 16, 16⟩).1, by decide,
   (c7_strategy_shape 1 3 2 ⟨1, 1, 16, 16⟩ ⟨1, 3, 16, 16⟩).2.1 (by decide)⟩

/-- C4: for sufficiently large inputs whose height or width is not
divisible by 16, every one of the four decoder stages is defined and its
output spatial height and width equal the corresponding skip tensor's
(x4, x3, x2, x1 respectively). -/
theorem c4_decoder_matches_skips (m : UNet) (s : Shape)
    (hc : s.c = m.in_channels) (hh : 16 ≤ s.h) (hw : 16 ≤ s.w)
    (hnd : ¬ 16 ∣ s.h ∨ ¬ 16 ∣ s.w) :
    ((m.dec1 s).isSome = true ∧ (m.dec2 s).isSome = true ∧
     (m.dec3 s).isSome = true ∧ (m.dec4 s).isSome = true) ∧
    ((m.dec1 s).map Shape.h = (m.encode s).map fun e => e.2.2.2.1.h) ∧
    ((m.dec1 s).map Shape.w = (m.encode s).map fun e => e.2.2.2.1.w) ∧
    ((m.dec2 s).map Shape.h = (m.encode s).map fun e => e.2.2.1.h) ∧
    ((m.dec2 s).map Shape.w = (m.encode s).map fun e => e.2.2.1.w) ∧
    ((m.dec3 s).map Shape.h = (m.encode s).map fun e => e.2.1.h) ∧
    ((m.dec3 s).map Shape.w = (m.encode s).map fun e => e.2.1.w) ∧
    ((m.dec4 s).map Shape.h = (m.encode s).map fun e => e.1.h) ∧
    ((m.dec4 s).map Shape.w = (m.encode s).map fun e => e.1.w) := by
  have hcond : s.c = m.in_channels ∧ 16 ≤ s.h ∧ 16 ≤ s.w := ⟨hc, hh, hw⟩
  rw [UNet.dec1_eq, UNet.dec2_eq, UNet.dec3_eq, UNet.dec4_eq, UNet.encode_eq,
    if_pos hcond, if_pos hcond, if_pos hcond, if_pos hcond, if_pos hcond]
  simp

/-- C4 (witness): base width 64, bilinear, input (1, 1, 17, 18) (height 17
not divisible by 16). -/
theorem c4_decoder_matches_skips_witness :
    (((UNet.make 1 4 true 64).dec1 ⟨1, 1, 17, 18⟩).isSome = true ∧
     ((UNet.make 1 4 true 64).dec2 ⟨1, 1, 17, 18⟩).isSome = true ∧
     ((UNet.make 1 4 true 64).dec3 ⟨1, 1, 17, 18⟩).isSome = true ∧
     ((UNet.make 1 4 true 64).dec4 ⟨1, 1, 17, 18⟩).isSome = true) ∧
    (((UNet.make 1 4 true 64).dec1 ⟨1, 1, 17, 18⟩).map Shape.h =
      ((UNet.make 1 4 true 64).encode ⟨1, 1, 17, 18⟩).map fun e => e.2.2.2.1.h) ∧
    (((UNet.make 1 4 true 64).dec1 ⟨1, 1, 17, 18⟩).map Shape.w =
      ((UNet.make 1 4 true 64).encode ⟨1, 1, 17, 18⟩).map fun e => e.2.2.2.1.w) ∧
    (((UNet.make 1 4 true 64).dec2 ⟨1, 1, 17, 18⟩).map Shape.h =
      ((UNet.make 1 4 true 64).encode ⟨1, 1, 17, 18⟩).map fun e => e.2.2.1.h) ∧
    (((UNet.make 1 4 true 64).dec2 ⟨1, 1, 17, 18⟩).map Shape.w =
      ((UNet.make 1 4 true 64).encode ⟨1, 1, 17, 18⟩).map fun e => e.2.2.1.w) ∧
    (((UNet.make 1 4 true 64).dec3 ⟨1, 1, 17, 18⟩).map Shape.h =
      ((UNet.make 1 4 true 64).encode ⟨1, 1, 17, 18⟩).map fun e => e.2.1.h) ∧
    (((UNet.make 1 4 true 64).dec3 ⟨1, 1, 17, 18⟩).map Shape.w =
      ((UNet.make 1 4 true 64).encode ⟨1, 1, 17, 18⟩).map fun e => e.2.1.w) ∧
    (((UNet.make 1 4 true 64).dec4 ⟨1, 1, 17, 18⟩).map Shape.h =
      ((UNet.make 1 4 true 64).encode ⟨1, 1, 17, 18⟩).map fun e => e.1.h) ∧
    (((UNet.make 1 4 true 64).dec4 ⟨1, 1, 17, 18⟩).map Shape.w =
      ((UNet.make 1 4 true 64).encode ⟨1, 1, 17, 18⟩).map fun e => e.1.w) :=
  c4_decoder_matches_skips (UNet.make 1 4 true 64) ⟨1, 1, 17, 18⟩ rfl
    (by decide) (by decide) (Or.inl (by decide))

/-- C8: the value-level forward pass is a pure function of configuration,
weights and input (constructing the same graph twice and evaluating it on
the same input gives identical outputs), and it has no data-dependent
control flow: two inputs of equal shape yield results of equal shape and
definedness, whatever their values. Batch normalization is the
evaluation-mode affine map by fixed running statistics throughout. -/
theorem c8_deterministic (ic nc : ℕ) (bil : Bool) (bc : ℕ) (p : UNetW)
    (x y : Tensor) (hxy : y.shape = x.shape) :
    UNet.forwardV (UNet.make ic nc bil bc) p x =
      UNet.forwardV (UNet.make ic nc bil bc) p x ∧
    (UNet.forwardV (UNet.make ic nc bil bc) p x).map Tensor.shape =
      (UNet.forwardV (UNet.make ic nc bil bc) p y).map Tensor.shape := by
  refine ⟨rfl, ?_⟩
  rw [unetForwardV_shape, unetForwardV_shape, hxy]

/-- C8 (witness): the default configuration on a concrete 1x1x1x1 tensor
with concrete weights. -/
theorem c8_deterministic_witness :
    testTensor.shape = testTensor.shape ∧
    (UNet.forwardV (UNet.make 1 4 true 64) testUNetW testTensor =
       UNet.forwardV (UNet.make 1 4 true 64) testUNetW testTensor ∧
     (UNet.forwardV (UNet.make 1 4 true 64) testUNetW testTensor).map
         Tensor.shape =
       (UNet.forwardV (UNet.make 1 4 true 64) testUNetW testTensor).map
         Tensor.shape) :=
  ⟨rfl, c8_deterministic 1 4 true 64 testUNetW testTensor testTensor rfl⟩

theorem Up.conv_in_channels (u : Up) : u.conv.in_channels = u.in_channels := by
  unfold Up.conv
  split_ifs <;> rfl

theorem Up.conv_mid_of_bilinear (u : Up) (hb : u.bilinear = true) :
    u.conv.mid_channels = u.in_channels / 2 := by
  simp [Up.conv, hb, DoubleConv.make]

theorem UNet.cat1_eq (m : UNet) (s : Shape) :
    m.cat1 s =
      if s.c = m.in_channels ∧ 16 ≤ s.h ∧ 16 ≤ s.w then
        some ⟨s.n, m.base_c * 16, s.h / 8, s.w / 8⟩
      else none := by
  obtain ⟨n, c, h, w⟩ := s
  unfold UNet.cat1
  rw [UNet.encode_eq]
  dsimp only
  split_ifs with hcond
  · rw [Option.some_bind]
    cases hbil : m.bilinear
    · simp only [UNet.up1, UNet.factor, hbil, Bool.false_eq_true, if_false]
      rw [Up.catted_eq_tconv _ rfl,
        if_pos (by dsimp only; refine ⟨?_, ?_, ?_, ?_⟩ <;> omega)]
      simp only [Option.some.injEq, Shape.mk.injEq]
      repeat' apply And.intro
      all_goals first | rfl | trivial | omega
    · simp only [UNet.up1, UNet.factor, hbil, if_true]
      rw [Up.catted_eq_bilinear _ rfl, if_pos rfl]
      simp only [Option.some.injEq, Shape.mk.injEq]
      repeat' apply And.intro
      all_goals first | rfl | trivial | omega
  · rw [Option.none_bind]

theorem UNet.cat2_eq (m : UNet) (s : Shape) :
    m.cat2 s =
      if s.c = m.in_channels ∧ 16 ≤ s.h ∧ 16 ≤ s.w then
        some ⟨s.n, m.base_c * 8, s.h / 4, s.w / 4⟩
      else none := by
  obtain ⟨n, c, h, w⟩ := s
  unfold UNet.cat2
  rw [UNet.encode_eq, UNet.dec1_eq]
  dsimp only
  split_ifs with hcond
  · rw [Option.some_bind, Option.some_bind]
    cases hbil : m.bilinear
    · simp only [UNet.up2, UNet.factor, hbil, Bool.false_eq_true, if_false]
      rw [Up.catted_eq_tconv _ rfl,
        if_pos (by dsimp only; refine ⟨?_, ?_, ?_, ?_⟩ <;> omega)]
      simp only [Option.some.injEq, Shape.mk.injEq]
      repeat' apply And.intro
      all_goals first | rfl | trivial | omega
    · simp only [UNet.up2, UNet.factor, hbil, if_true]
      rw [Up.catted_eq_bilinear _ rfl, if_pos rfl]
      simp only [Option.some.injEq, Shape.mk.injEq]
      repeat' apply And.intro
      all_goals first | rfl | trivial | omega
  · rw [Option.none_bind]

theorem UNet.cat3_eq (m : UNet) (s : Shape) :
    m.cat3 s =
      if s.c = m.in_channels ∧ 16 ≤ s.h ∧ 16 ≤ s.w then
        some ⟨s.n, m.base_c * 4, s.h / 2, s.w / 2⟩
      else none := by
  obtain ⟨n, c, h, w⟩ := s
  unfold UNet.cat3
  rw [UNet.encode_eq, UNet.dec2_eq]
  dsimp only
  split_ifs with hcond
  · rw [Option.some_bind, Option.some_bind]
    cases hbil : m.bilinear
    · simp only [UNet.up3, UNet.factor, hbil, Bool.false_eq_true, if_false]
      rw [Up.catted_eq_tconv _ rfl,
        if_pos (by dsimp only; refine ⟨?_, ?_, ?_, ?_⟩ <;> omega)]
      simp only [Option.some.injEq, Shape.mk.injEq]
      repeat' apply And.intro
      all_goals first | rfl | trivial | omega
    · simp only [UNet.up3, UNet.factor, hbil, if_true]
      rw [Up.catted_eq_bilinear _ rfl, if_pos rfl]
      simp only [Option.some.injEq, Shape.mk.injEq]
      repeat' apply And.intro
      all_goals first | rfl | trivial | omega
  · rw [Option.none_bind]

theorem UNet.cat4_eq (m : UNet) (s : Shape) :
    m.cat4 s =
      if s.c = m.in_channels ∧ 16 ≤ s.h ∧ 16 ≤ s.w then
        some ⟨s.n, m.base_c * 2, s.h, s.w⟩
      else none := by
  obtain ⟨n, c, h, w⟩ := s
  unfold UNet.cat4
  rw [UNet.encode_eq, UNet.dec3_eq]
  dsimp only
  split_ifs with hcond
  · rw [Option.some_bind, Option.some_bind]
    cases hbil : m.bilinear
    · simp only [UNet.up4, UNet.factor, hbil, Bool.false_eq_true, if_false]
      rw [Up.catted_eq_tconv _ rfl,
        if_pos (by dsimp only; refine ⟨?_, ?_, ?_, ?_⟩ <;> omega)]
      simp only [Option.some.injEq, Shape.mk.injEq]
      repeat' apply And.intro
      all_goals first | rfl | trivial | omega
    · simp only [UNet.up4, UNet.factor, hbil, if_true]
      rw [Up.catted_eq_bilinear _ rfl, if_pos rfl]
      simp only [Option.some.injEq, Shape.mk.injEq]
      repeat' apply And.intro
      all_goals first | rfl | trivial | omega
  · rw [Option.none_bind]

/-- C10: on any valid input, at each of the four decoder stages the
channel count of the concatenated tensor equals the in_channels of that
stage's ConvBlock, for either strategy and any base width at least 1; with
bilinear upsampling the ConvBlock's intermediate width is in_channels / 2
at every stage. -/
theorem c10_cat_channels (m : UNet) (s : Shape) (hb : 1 ≤ m.base_c)
    (hc : s.c = m.in_channels) (hh : 16 ≤ s.h) (hw : 16 ≤ s.w) :
    ((m.cat1 s).map Shape.c = some m.up1.conv.in_channels ∧
     (m.cat2 s).map Shape.c = some m.up2.conv.in_channels ∧
     (m.cat3 s).map Shape.c = some m.up3.conv.in_channels ∧
     (m.cat4 s).map Shape.c = some m.up4.conv.in_channels) ∧
    (m.bilinear = true →
      m.up1.conv.mid_channels = m.up1.in_channels / 2 ∧
      m.up2.conv.mid_channels = m.up2.in_channels / 2 ∧
      m.up3.conv.mid_channels = m.up3.in_channels / 2 ∧
      m.up4.conv.mid_channels = m.up4.in_channels / 2) := by
  have hcond : s.c = m.in_channels ∧ 16 ≤ s.h ∧ 16 ≤ s.w := ⟨hc, hh, hw⟩
  constructor
  · rw [UNet.cat1_eq, UNet.cat2_eq, UNet.cat3_eq, UNet.cat4_eq,
      if_pos hcond, if_pos hcond, if_pos hcond, if_pos hcond,
      Up.conv_in_channels, Up.conv_in_channels, Up.conv_in_channels,
      Up.conv_in_channels]
    simp only [Option.map_some']
    exact ⟨rfl, rfl, rfl, rfl⟩
  · intro hbil
    exact ⟨Up.conv_mid_of_bilinear _ hbil, Up.conv_mid_of_bilinear _ hbil,
      Up.conv_mid_of_bilinear _ hbil, Up.conv_mid_of_bilinear _ hbil⟩

/-- C10 (witness): base width 2, bilinear, input (1, 1, 16, 16). -/
theorem c10_cat_channels_witness :
    (((UNet.make 1 4 true 2).cat1 ⟨1, 1, 16, 16⟩).map Shape.c =
        some (UNet.make 1 4 true 2).up1.conv.in_channels ∧
     ((UNet.make 1 4 true 2).cat2 ⟨1, 1, 16, 16⟩).map Shape.c =
        some (UNet.make 1 4 true 2).up2.conv.in_channels ∧
     ((UNet.make 1 4 true 2).cat3 ⟨1, 1, 16, 16⟩).map Shape.c =
        some (UNet.make 1 4 true 2).up3.conv.in_channels ∧
     ((UNet.make 1 4 true 2).cat4 ⟨1, 1, 16, 16⟩).map Shape.c =
        some (UNet.make 1 4 true 2).up4.conv.in_channels) ∧
    ((UNet.make 1 4 true 2).bilinear = true →
      (UNet.make 1 4 true 2).up1.conv.mid_channels =
        (UNet.make 1 4 true 2).up1.in_channels / 2 ∧
      (UNet.make 1 4 true 2).up2.conv.mid_channels =
        (UNet.make 1 4 true 2).up2.in_channels / 2 ∧
      (UNet.make 1 4 true 2).up3.conv.mid_channels =
        (UNet.make 1 4 true 2).up3.in_channels / 2 ∧
      (UNet.make 1 4 true 2).up4.conv.mid_channels =
        (UNet.make 1 4 true 2).up4.in_channels / 2) :=
  c10_cat_channels (UNet.make 1 4 true 2) ⟨1, 1, 16, 16⟩ (by decide) rfl
    (by decide) (by decide)
